import Mathlib

/-!
Verification development for the trace-context propagation core of the
`aws-lambda-otel-observability` repository.

The JavaScript source is shallowly embedded: each relevant function of
`src/index.js` and `src/src/publisher/index.mjs` is rendered as an executable
Lean definition over explicit inputs (records, attribute maps, random digit
streams).  JavaScript's `||` truthiness, `?.` optional chaining, object-spread
key override, `String.split('-')` and `JSON.parse` are modelled by small
helper functions defined below.  The W3C trace-identifier codec
(`parse`/`serialize`) has no implementation in the source; it is modelled from
the specification, as marked in its doc comments.
-/

/-- Association-list lookup modelling JavaScript property access `m[k]`
(`undefined` becomes `none`).  First binding wins, matching insertion order. -/
def jsLookup {α : Type} : List (String × α) → String → Option α
  | [], _ => none
  | (k', v') :: rest, k => if k' = k then some v' else jsLookup rest k

/-- Property assignment / object-literal override `m[k] = v`: replaces the
value in place when the key exists (JavaScript keeps the original key
position), otherwise appends the new binding. -/
def jsSet {α : Type} : List (String × α) → String → α → List (String × α)
  | [], k, v => [(k, v)]
  | (k', v') :: rest, k, v =>
      if k' = k then (k, v) :: rest else (k', v') :: jsSet rest k v

/-- JavaScript truthiness filter for an optional string: `undefined` and the
empty string are falsy, every other string is truthy. -/
def truthyVal : Option String → Option String
  | some s => if s = "" then none else some s
  | none => none

/-- JavaScript `a || b` on two optional strings: `a`'s value when truthy,
otherwise `b` (whatever it is). -/
def jsOrOpt (a b : Option String) : Option String :=
  match truthyVal a with
  | some s => some s
  | none => b

/-- JavaScript `a || b` where the right operand is a (total) string. -/
def jsOrStr (a : Option String) (b : String) : String :=
  match truthyVal a with
  | some s => s
  | none => b

/-- Model of JavaScript `text.split('-')`, on the character list: splitting
never yields the empty list (`"".split('-')` is `[""]`). -/
def splitDash : List Char → List (List Char)
  | [] => [[]]
  | c :: rest =>
      if c = '-' then [] :: splitDash rest
      else
        match splitDash rest with
        | [] => [[c]]
        | seg :: segs => (c :: seg) :: segs

/-- String-level wrapper of `splitDash`, as used by the extractors. -/
def splitDashStr (s : String) : List String :=
  (splitDash s.data).map String.mk

/-- Lowercase-hexadecimal character test (`0`-`9`, `a`-`f`). -/
def isLowerHexDigit (c : Char) : Bool :=
  (('0' ≤ c) && (c ≤ '9')) || (('a' ≤ c) && (c ≤ 'f'))

/-- Value of one lowercase hexadecimal digit. -/
def hexDigitVal (c : Char) : Nat :=
  if c ≤ '9' then c.toNat - 48 else c.toNat - 87

/-- Value of a two-character hexadecimal field (used for the flags byte). -/
def hexByteVal : List Char → Nat
  | [a, b] => hexDigitVal a * 16 + hexDigitVal b
  | _ => 0

/-- Hex digit character for a value below 16, as produced by JavaScript's
`Math.floor(Math.random() * 16).toString(16)`. -/
def hexDigitChar (n : Nat) : Char :=
  if n < 10 then Char.ofNat (48 + n) else Char.ofNat (87 + n)

/-- Modelled from the spec: the `TraceIdentifier` record of section 3 (the
source carries the identifier only in serialized string form).  `flags` is the
1-byte bitfield, bit 0 being the sampled bit. -/
structure TraceIdentifier where
  version : String
  traceId : String
  spanId : String
  flags : Nat
deriving DecidableEq

/-- Modelled from the spec: `parse(text) -> TraceIdentifier | invalid` of
section 4.1, absent from the source (the consumer splits without
validation).  Splits on `-`; fails unless there are exactly 4 segments of
lengths 2/32/16/2, all characters lowercase hex. -/
def parseTraceparent (s : String) : Option TraceIdentifier :=
  match splitDash s.data with
  | [v, t, sp, f] =>
      if v.length = 2 ∧ t.length = 32 ∧ sp.length = 16 ∧ f.length = 2
          ∧ (v ++ t ++ sp ++ f).all isLowerHexDigit = true then
        some ⟨String.mk v, String.mk t, String.mk sp, hexByteVal f⟩
      else none
  | _ => none

/-- Modelled from the spec: `serialize(identifier) -> text` of section 4.1,
rendering `version-traceId-spanId-flagsHex` with the flags field rendered as
`01` when the sampled bit is set, else `00`. -/
def serializeTraceparent (t : TraceIdentifier) : String :=
  String.mk (t.version.data ++ '-' :: (t.traceId.data ++ '-' :: (t.spanId.data
    ++ '-' :: (if t.flags % 2 = 1 then ['0', '1'] else ['0', '0']))))

/-- JSON values as produced by `JSON.parse`; numbers are restricted to
integers, which covers every payload in the repository. -/
inductive Json where
  | null
  | bool (b : Bool)
  | num (n : Int)
  | str (s : String)
  | arr (elems : List Json)
  | obj (fields : List (String × Json))

/-- Consume the body of a JSON string literal after the opening quote,
returning the decoded characters and the remaining input.  Handles the
escape sequences used in the repository (`\"`, `\\`, `\n`, `\t`, `\r`). -/
def parseStringChars : List Char → Option (List Char × List Char)
  | [] => none
  | '"' :: rest => some ([], rest)
  | '\\' :: e :: rest =>
      match parseStringChars rest with
      | some (s, r) =>
          let d := if e = 'n' then '\n' else if e = 't' then '\t'
                   else if e = 'r' then '\r' else e
          some (d :: s, r)
      | none => none
  | c :: rest =>
      match parseStringChars rest with
      | some (s, r) => some (c :: s, r)
      | none => none

/-- Skip JSON whitespace. -/
def skipWs : List Char → List Char
  | [] => []
  | c :: rest =>
      if c = ' ' ∨ c = '\n' ∨ c = '\t' ∨ c = '\r' then skipWs rest else c :: rest

/-- Longest prefix of decimal digits. -/
def takeDigits : List Char → List Char × List Char
  | [] => ([], [])
  | c :: rest =>
      if c.isDigit then
        let (d, r) := takeDigits rest
        (c :: d, r)
      else ([], c :: rest)

/-- Decimal value of a digit list. -/
def digitsToNat (ds : List Char) : Nat :=
  ds.foldl (fun a c => a * 10 + (c.toNat - 48)) 0

/-- Parse a JSON integer literal (optionally negative). -/
def parseNumTok (cs : List Char) : Option (Json × List Char) :=
  match cs with
  | '-' :: rest =>
      match takeDigits rest with
      | ([], _) => none
      | (ds, r) => some (.num (-(digitsToNat ds : Int)), r)
  | _ =>
      match takeDigits cs with
      | ([], _) => none
      | (ds, r) => some (.num (digitsToNat ds), r)

mutual

/-- Recursive-descent JSON value parser; `fuel` bounds the recursion and is
instantiated with the input length, which each nested call strictly consumes. -/
def parseVal : Nat → List Char → Option (Json × List Char)
  | 0, _ => none
  | Nat.succ fuel, cs =>
      match skipWs cs with
      | '{' :: rest =>
          match skipWs rest with
          | '}' :: rest2 => some (.obj [], rest2)
          | rest2 =>
              match parseMembers fuel rest2 with
              | some (fs, r) => some (.obj fs, r)
              | none => none
      | '[' :: rest =>
          match skipWs rest with
          | ']' :: rest2 => some (.arr [], rest2)
          | rest2 =>
              match parseElems fuel rest2 with
              | some (es, r) => some (.arr es, r)
              | none => none
      | '"' :: rest =>
          match parseStringChars rest with
          | some (s, r) => some (.str (String.mk s), r)
          | none => none
      | 't' :: 'r' :: 'u' :: 'e' :: rest => some (.bool true, rest)
      | 'f' :: 'a' :: 'l' :: 's' :: 'e' :: rest => some (.bool false, rest)
      | 'n' :: 'u' :: 'l' :: 'l' :: rest => some (.null, rest)
      | cs2 => parseNumTok cs2

/-- Parse the members of a JSON object after the opening brace. -/
def parseMembers : Nat → List Char → Option (List (String × Json) × List Char)
  | 0, _ => none
  | Nat.succ fuel, cs =>
      match skipWs cs with
      | '"' :: rest =>
          match parseStringChars rest with
          | some (key, r1) =>
              match skipWs r1 with
              | ':' :: r2 =>
                  match parseVal fuel r2 with
                  | some (v, r3) =>
                      match skipWs r3 with
                      | ',' :: r4 =>
                          match parseMembers fuel r4 with
                          | some (fs, r) => some ((String.mk key, v) :: fs, r)
                          | none => none
                      | '}' :: r4 => some ([(String.mk key, v)], r4)
                      | _ => none
                  | none => none
              | _ => none
          | none => none
      | _ => none

/-- Parse the elements of a JSON array after the opening bracket. -/
def parseElems : Nat → List Char → Option (List Json × List Char)
  | 0, _ => none
  | Nat.succ fuel, cs =>
      match parseVal fuel cs with
      | some (v, r1) =>
          match skipWs r1 with
          | ',' :: r2 =>
              match parseElems fuel r2 with
              | some (es, r) => some (v :: es, r)
              | none => none
          | ']' :: r2 => some ([v], r2)
          | _ => none
      | none => none

end

/-- Model of `JSON.parse(s)`: `none` models the thrown `SyntaxError` (trailing
garbage rejected, as in JavaScript). -/
def jsonParse (s : String) : Option Json :=
  match parseVal (s.length + 1) s.data with
  | some (v, rest) => if skipWs rest = [] then some v else none
  | none => none

/-- JavaScript property read `o.k` on a parsed JSON value: only objects carry
fields, everything else yields `undefined` (`none`). -/
def jsGetField : Json → String → Option Json
  | .obj fields, k => jsLookup fields k
  | _, _ => none

/-- JavaScript truthiness of a JSON value. -/
def jsTruthy : Json → Bool
  | .null => false
  | .bool b => b
  | .num n => n ≠ 0
  | .str s => s ≠ ""
  | .arr _ => true
  | .obj _ => true

mutual

/-- JavaScript `String(v)` coercion of a JSON value, as applied by
`JSON.parse` to a non-string argument. -/
def jsStringOf : Json → String
  | .null => "null"
  | .bool true => "true"
  | .bool false => "false"
  | .num n => toString n
  | .str s => s
  | .arr es => jsStringOfElems es
  | .obj _ => "[object Object]"

/-- Array-to-string coercion: elements joined by commas. -/
def jsStringOfElems : List Json → String
  | [] => ""
  | [j] => jsStringOf j
  | j :: rest => jsStringOf j ++ "," ++ jsStringOfElems rest

end

/-- An OpenTelemetry span context as read from the active span
(`span.spanContext()`): trace id, span id and the trace-flags byte. -/
structure SpanContext where
  traceId : String
  spanId : String
  traceFlags : Nat
deriving DecidableEq

/-- The trace-context value built by `ObservabilityManager.getTraceContext`
and `extractIncomingTraceContext` (`src/index.js`).  `traceId`/`spanId` are
optional because the extractor reads them by unchecked indexing
(`parts[1]`, `parts[2]`), which is `undefined` past the end. -/
structure TraceContext where
  traceId : Option String
  spanId : Option String
  traceparent : String
deriving DecidableEq

/-- `ObservabilityManager.getTraceContext` (`src/index.js` lines 153-164):
`null` without a current span, otherwise the span's ids and the serialized
`00-traceId-spanId-flags` string with flags from the sampled bit. -/
def getTraceContext (currentSpan : Option SpanContext) : Option TraceContext :=
  match currentSpan with
  | none => none
  | some sc =>
      let flags := if sc.traceFlags % 2 = 1 then "01" else "00"
      some ⟨some sc.traceId, some sc.spanId,
        "00-" ++ sc.traceId ++ "-" ++ sc.spanId ++ "-" ++ flags⟩

/-- A message attribute value `{DataType, StringValue}` as carried by SNS/SQS
message-attribute maps. -/
structure MsgAttr where
  dataType : String
  stringValue : String
deriving DecidableEq

/-- An inbound SQS record, restricted to the fields the library reads:
`messageId`, `body`, the optional `messageAttributes` map, and the optional
API-Gateway-style `headers` map. -/
structure SQSRecord where
  messageId : String
  body : String
  messageAttributes : Option (List (String × MsgAttr))
  headers : Option (List (String × String))
deriving DecidableEq

/-- The reconciled carrier value of the SQS branch of
`extractIncomingTraceContext`:
`record.messageAttributes.traceparent?.stringValue ||
 record.messageAttributes.w3c_traceparent_orig?.stringValue`. -/
def attrsCarrier (r : SQSRecord) : Option String :=
  match r.messageAttributes with
  | some attrs =>
      jsOrOpt ((jsLookup attrs "traceparent").map MsgAttr.stringValue)
        ((jsLookup attrs "w3c_traceparent_orig").map MsgAttr.stringValue)
  | none => none

/-- The API-Gateway branch condition of `extractIncomingTraceContext`:
`record.headers && record.headers.traceparent` (truthy value or nothing). -/
def headerCarrier (r : SQSRecord) : Option String :=
  match r.headers with
  | some hs => truthyVal (jsLookup hs "traceparent")
  | none => none

/-- The context built from a carrier string by naive splitting:
`{ traceId: parts[1], spanId: parts[2], traceparent }`. -/
def contextFromTraceparent (tp : String) : TraceContext :=
  let parts := splitDashStr tp
  ⟨parts.get? 1, parts.get? 2, tp⟩

/-- `ObservabilityManager.extractIncomingTraceContext` (`src/index.js` lines
169-196): the SQS attribute branch first (primary `traceparent` attribute,
falling back to `w3c_traceparent_orig` via `||`), then the API-Gateway header
branch, else `null`.  No validation is performed on the carrier text. -/
def extractIncomingTraceContext (r : SQSRecord) : Option TraceContext :=
  match truthyVal (attrsCarrier r) with
  | some tp => some (contextFromTraceparent tp)
  | none =>
      match headerCarrier r with
      | some tp => some (contextFromTraceparent tp)
      | none => none

/-- The error message thrown by `SQSProcessor.parseMessage`; the interpolated
engine-supplied `error.message` suffix is abstracted to a fixed text. -/
def parseFailMsg : String := "Failed to parse message"

/-- `SQSProcessor.parseMessage` (`src/index.js` lines 330-343): parse the
body; when the result carries `Type === "Notification"` and a truthy
`Message`, re-parse the (coerced) `Message` as the payload; both parse
failures and the property access on a `null` body throw, modelled by
`Except.error`. -/
def parseMessage (r : SQSRecord) : Except String Json :=
  match jsonParse r.body with
  | none => .error parseFailMsg
  | some Json.null => .error parseFailMsg
  | some body =>
      match jsGetField body "Type", jsGetField body "Message" with
      | some (Json.str "Notification"), some m =>
          if jsTruthy m then
            match jsonParse (jsStringOf m) with
            | some inner => .ok inner
            | none => .error parseFailMsg
          else .ok body
      | _, _ => .ok body

/-- Boolean error test for `Except`. -/
def isExceptError {ε α : Type} : Except ε α → Bool
  | .error _ => true
  | .ok _ => false

/-- One record of the `processBatch` loop body: parse the message (failures
are caught), then run the caller's business logic on the payload and the
record; a thrown business error propagates to the same catch. -/
def processRecord {α : Type} (biz : Json → SQSRecord → Except String α)
    (r : SQSRecord) : Except String α :=
  match parseMessage r with
  | .error e => .error e
  | .ok m => biz m r

/-- One entry of the internal `results` array of `processBatch`:
`{messageId, status: success, result}` or `{messageId, status: error, error}`. -/
inductive RecordOutcome (α : Type) where
  | success (messageId : String) (result : α)
  | error (messageId : String) (message : String)
deriving DecidableEq

/-- The record identity of an outcome entry. -/
def RecordOutcome.messageId {α : Type} : RecordOutcome α → String
  | .success mid _ => mid
  | .error mid _ => mid

/-- Status test: success. -/
def RecordOutcome.isSuccess {α : Type} : RecordOutcome α → Bool
  | .success _ _ => true
  | .error _ _ => false

/-- Status test: error. -/
def RecordOutcome.isError {α : Type} : RecordOutcome α → Bool
  | .success _ _ => false
  | .error _ _ => true

/-- The outcome `processBatch` records for one input record. -/
def toOutcome {α : Type} (biz : Json → SQSRecord → Except String α)
    (r : SQSRecord) : RecordOutcome α :=
  match processRecord biz r with
  | .ok v => .success r.messageId v
  | .error e => .error r.messageId e

/-- The state `processBatch` accumulates: the internal `results` array and
the `failures` array returned as `{ batchItemFailures }` (here the
`itemIdentifier` strings). -/
structure BatchOutcome (α : Type) where
  results : List (RecordOutcome α)
  batchItemFailures : List String
deriving DecidableEq

/-- `SQSProcessor.processBatch` (`src/index.js` lines 244-328), with the
logging and span bookkeeping (side effects only) dropped: the sequential
`for` loop over `event.Records` is rendered as structural recursion, each
iteration appending one `results` entry and, on a caught failure, one
`batchItemFailures` entry, then continuing with the remaining records. -/
def processBatch {α : Type} (records : List SQSRecord)
    (biz : Json → SQSRecord → Except String α) : BatchOutcome α :=
  match records with
  | [] => ⟨[], []⟩
  | r :: rest =>
      let tail := processBatch rest biz
      match processRecord biz r with
      | .ok v => ⟨.success r.messageId v :: tail.results, tail.batchItemFailures⟩
      | .error e =>
          ⟨.error r.messageId e :: tail.results,
            r.messageId :: tail.batchItemFailures⟩

/-- `n` hex characters drawn from the random digit stream `rand` starting at
stream position `start`; each draw models
`Math.floor(Math.random() * 16).toString(16)`. -/
def randHexChars (rand : Nat → Nat) (start n : Nat) : List Char :=
  (List.range n).map fun i => hexDigitChar (rand (start + i) % 16)

/-- Character-list form of `generateW3CTraceparent`
(`src/src/publisher/index.mjs` lines 47-55): `"00-" + traceId + "-" + spanId
+ "-01"` with a random 32-hex trace id and 16-hex span id; the stream
positions 0-31 and 32-47 are the successive random draws. -/
def generateW3CTraceparentL (rand : Nat → Nat) : List Char :=
  ['0', '0'] ++ '-' :: (randHexChars rand 0 32
    ++ '-' :: (randHexChars rand 32 16 ++ '-' :: ['0', '1']))

/-- `generateW3CTraceparent` of the publisher handler. -/
def generateW3CTraceparent (rand : Nat → Nat) : String :=
  String.mk (generateW3CTraceparentL rand)

/-- `SNSPublisher.generateFallbackTrace` (`src/index.js` lines 406-410);
its body is character-for-character the same as `generateW3CTraceparent`. -/
def generateFallbackTrace (rand : Nat → Nat) : String :=
  generateW3CTraceparent rand

/-- The Context Source of the publisher handler (`src/src/publisher/index.mjs`
line 91): `incomingTraceparent || otelTraceparent || generateW3CTraceparent()`.
`incomingTraceparent` is `event.traceparent`; `otelTraceparent` is the result
of the ambient `getTraceparentFromActiveSpan()` query, taken here as an
input. -/
def publisherTraceparent (incomingTraceparent otelTraceparent : Option String)
    (rand : Nat → Nat) : String :=
  match truthyVal incomingTraceparent with
  | some t => t
  | none =>
      match truthyVal otelTraceparent with
      | some t => t
      | none => generateW3CTraceparent rand

/-- The message-attribute map built by the publisher handler
(`src/src/publisher/index.mjs` lines 130-152): base attributes, the optional
attributes when their event fields are truthy (passed here already
filtered), then the single computed `traceparent` written into both the
primary `traceparent` attribute and the backup `w3c_traceparent_orig`
attribute. -/
def handlerMessageAttributes (transactionType orderId : String)
    (amount customerId reason : Option String) (traceparent : String) :
    List (String × MsgAttr) :=
  let attrs : List (String × MsgAttr) :=
    [("transactionType", ⟨"String", transactionType⟩),
     ("orderId", ⟨"String", orderId⟩)]
  let attrs := match amount with
    | some a => jsSet attrs "amount" ⟨"Number", a⟩
    | none => attrs
  let attrs := match customerId with
    | some c => jsSet attrs "customerId" ⟨"String", c⟩
    | none => attrs
  let attrs := match reason with
    | some v => jsSet attrs "reason" ⟨"String", v⟩
    | none => attrs
  let attrs := jsSet attrs "traceparent" ⟨"String", traceparent⟩
  jsSet attrs "w3c_traceparent_orig" ⟨"String", traceparent⟩

/-- The message-attribute map built by `SNSPublisher.publish` (`src/index.js`
lines 372-384): the caller's `options.messageAttributes` spread first, then
the two carrier attributes, each computed as
`traceContext?.traceparent || this.generateFallbackTrace()`.  The two
fallback calls are successive, so the second consumes the random stream from
position 48. -/
def buildMessageAttributes (traceContext : Option TraceContext)
    (optionAttrs : List (String × MsgAttr)) (rand : Nat → Nat) :
    List (String × MsgAttr) :=
  let tp1 := jsOrStr (traceContext.map TraceContext.traceparent)
    (generateFallbackTrace rand)
  let tp2 := jsOrStr (traceContext.map TraceContext.traceparent)
    (generateFallbackTrace (fun i => rand (48 + i)))
  jsSet (jsSet optionAttrs "traceparent" ⟨"String", tp1⟩)
    "w3c_traceparent_orig" ⟨"String", tp2⟩

/-- The attribute map as published by `SNSPublisher.publish`: the manager is
constructed without `init`, so its `currentSpan` is `null` and
`getTraceContext()` is `null` on every call. -/
def publishMessageAttributes (optionAttrs : List (String × MsgAttr))
    (rand : Nat → Nat) : List (String × MsgAttr) :=
  buildMessageAttributes (getTraceContext none) optionAttrs rand

theorem jsLookup_jsSet_self {α : Type} (m : List (String × α)) (k : String)
    (v : α) : jsLookup (jsSet m k v) k = some v := by
  induction m with
  | nil => simp [jsSet, jsLookup]
  | cons p rest ih =>
      by_cases h : p.1 = k
      · simp [jsSet, jsLookup, h]
      · simp [jsSet, jsLookup, h, ih]

theorem jsLookup_jsSet_ne {α : Type} (m : List (String × α)) (k k' : String)
    (v : α) (h : k' ≠ k) : jsLookup (jsSet m k v) k' = jsLookup m k' := by
  have hk : ¬k = k' := fun hh => h hh.symm
  induction m with
  | nil => simp [jsSet, jsLookup, hk]
  | cons p rest ih =>
      obtain ⟨pk, pv⟩ := p
      by_cases hp : pk = k
      · subst hp
        simp [jsSet, jsLookup, hk]
      · simp [jsSet, jsLookup, hp, ih]

theorem splitDash_ne_nil (l : List Char) : splitDash l ≠ [] := by
  induction l with
  | nil => simp [splitDash]
  | cons c rest ih =>
      by_cases h : c = '-'
      · simp [splitDash, h]
      · cases hs : splitDash rest with
        | nil => exact absurd hs ih
        | cons seg segs => simp [splitDash, h, hs]

theorem splitDash_nodash (l : List Char) (h : '-' ∉ l) : splitDash l = [l] := by
  induction l with
  | nil => rfl
  | cons c rest ih =>
      have hc : ¬c = '-' := fun hh => h (hh ▸ List.mem_cons_self c rest)
      have hr : '-' ∉ rest := fun hh => h (List.mem_cons_of_mem c hh)
      simp [splitDash, hc, ih hr]

theorem splitDash_append (a r : List Char) (h : '-' ∉ a) :
    splitDash (a ++ '-' :: r) = a :: splitDash r := by
  induction a with
  | nil => simp [splitDash]
  | cons c rest ih =>
      have hc : ¬c = '-' := fun hh => h (hh ▸ List.mem_cons_self c rest)
      have hr : '-' ∉ rest := fun hh => h (List.mem_cons_of_mem c hh)
      simp only [List.cons_append, splitDash, if_neg hc, List.append_eq, ih hr]

theorem nodash_of_all_hex (l : List Char)
    (h : l.all isLowerHexDigit = true) : '-' ∉ l := by
  intro hm
  have := List.all_eq_true.mp h '-' hm
  exact absurd this (by decide)

theorem hexDigitChar_hex (n : Nat) (h : n < 16) :
    isLowerHexDigit (hexDigitChar n) = true := by
  interval_cases n <;> decide

theorem randHexChars_length (rand : Nat → Nat) (start n : Nat) :
    (randHexChars rand start n).length = n := by
  simp [randHexChars]

theorem randHexChars_all_hex (rand : Nat → Nat) (start n : Nat) :
    (randHexChars rand start n).all isLowerHexDigit = true := by
  rw [List.all_eq_true]
  intro c hc
  rw [randHexChars, List.mem_map] at hc
  obtain ⟨i, _, rfl⟩ := hc
  exact hexDigitChar_hex _ (Nat.mod_lt _ (by norm_num))

theorem randHexChars_nodash (rand : Nat → Nat) (start n : Nat) :
    '-' ∉ randHexChars rand start n :=
  nodash_of_all_hex _ (randHexChars_all_hex rand start n)

theorem mk_data (s : String) : String.mk s.data = s := rfl

theorem parseTraceparent_inv (s : String) (t : TraceIdentifier)
    (h : parseTraceparent s = some t) :
    ∃ v tr sp f, splitDash s.data = [v, tr, sp, f] ∧ v.length = 2 ∧
      tr.length = 32 ∧ sp.length = 16 ∧ f.length = 2 ∧
      (v ++ tr ++ sp ++ f).all isLowerHexDigit = true ∧
      t = ⟨String.mk v, String.mk tr, String.mk sp, hexByteVal f⟩ := by
  unfold parseTraceparent at h
  split at h
  next v tr sp f heq =>
    split at h
    next hcond =>
      obtain ⟨h1, h2, h3, h4, h5⟩ := hcond
      exact ⟨v, tr, sp, f, heq, h1, h2, h3, h4, h5, (Option.some.inj h).symm⟩
    next => exact absurd h (by simp)
  next => exact absurd h (by simp)

theorem parseTraceparent_serialize (t : TraceIdentifier)
    (hv : t.version.data.length = 2)
    (ht : t.traceId.data.length = 32)
    (hs : t.spanId.data.length = 16)
    (hhex : (t.version.data ++ t.traceId.data ++ t.spanId.data).all
      isLowerHexDigit = true)
    (hf : t.flags < 2) :
    parseTraceparent (serializeTraceparent t) = some t := by
  have hhv : t.version.data.all isLowerHexDigit = true := by
    rw [List.all_eq_true] at hhex ⊢
    intro c hc
    exact hhex c (by simp [hc])
  have hht : t.traceId.data.all isLowerHexDigit = true := by
    rw [List.all_eq_true] at hhex ⊢
    intro c hc
    exact hhex c (by simp [hc])
  have hhs : t.spanId.data.all isLowerHexDigit = true := by
    rw [List.all_eq_true] at hhex ⊢
    intro c hc
    exact hhex c (by simp [hc])
  unfold serializeTraceparent parseTraceparent
  rw [show (String.mk (t.version.data ++ '-' :: (t.traceId.data ++ '-' ::
      (t.spanId.data ++ '-' ::
      (if t.flags % 2 = 1 then ['0', '1'] else ['0', '0']))))).data
      = t.version.data ++ '-' :: (t.traceId.data ++ '-' :: (t.spanId.data
        ++ '-' :: (if t.flags % 2 = 1 then ['0', '1'] else ['0', '0'])))
    from rfl]
  rw [splitDash_append _ _ (nodash_of_all_hex _ hhv),
    splitDash_append _ _ (nodash_of_all_hex _ hht),
    splitDash_append _ _ (nodash_of_all_hex _ hhs),
    splitDash_nodash _ (by split <;> decide)]
  have hcanonlen : (if t.flags % 2 = 1 then ['0', '1'] else ['0', '0']).length
      = 2 := by split <;> rfl
  have hcanonhex : (if t.flags % 2 = 1 then ['0', '1'] else ['0', '0']).all
      isLowerHexDigit = true := by split <;> decide
  show (if t.version.data.length = 2 ∧ t.traceId.data.length = 32 ∧
      t.spanId.data.length = 16 ∧
      (if t.flags % 2 = 1 then ['0', '1'] else ['0', '0']).length = 2 ∧
      (t.version.data ++ t.traceId.data ++ t.spanId.data ++
        (if t.flags % 2 = 1 then ['0', '1'] else ['0', '0'])).all
        isLowerHexDigit = true then
    some ⟨String.mk t.version.data, String.mk t.traceId.data,
      String.mk t.spanId.data,
      hexByteVal (if t.flags % 2 = 1 then ['0', '1'] else ['0', '0'])⟩
    else none) = some t
  have hflags : hexByteVal
      (if t.flags % 2 = 1 then ['0', '1'] else ['0', '0']) = t.flags := by
    have h01 : t.flags = 0 ∨ t.flags = 1 := by omega
    rcases h01 with h0 | h1
    · rw [h0]; decide
    · rw [h1]; decide
  rw [if_pos]
  · rw [hflags, mk_data, mk_data, mk_data]
  · refine ⟨hv, ht, hs, hcanonlen, ?_⟩
    simp only [List.all_append]
    simp [List.all_eq_true] at hhv hht hhs hcanonhex ⊢
    exact ⟨⟨⟨hhv, hht⟩, hhs⟩, hcanonhex⟩

theorem processBatch_results_eq {α : Type} (records : List SQSRecord)
    (biz : Json → SQSRecord → Except String α) :
    (processBatch records biz).results = records.map (toOutcome biz) := by
  induction records with
  | nil => rfl
  | cons r rest ih =>
      cases hpr : processRecord biz r with
      | ok v => simp [processBatch, toOutcome, hpr, ih]
      | error e => simp [processBatch, toOutcome, hpr, ih]

theorem processBatch_failures_eq {α : Type} (records : List SQSRecord)
    (biz : Json → SQSRecord → Except String α) :
    (processBatch records biz).batchItemFailures =
      (records.filter (fun r => isExceptError (processRecord biz r))).map
        SQSRecord.messageId := by
  induction records with
  | nil => rfl
  | cons r rest ih =>
      cases hpr : processRecord biz r with
      | ok v => simp [processBatch, hpr, ih, List.filter_cons, isExceptError]
      | error e => simp [processBatch, hpr, ih, List.filter_cons, isExceptError]

theorem filter_singleton_of_index {α : Type} (l : List α) (p : α → Bool) :
    ∀ (k : Nat) (hk : k < l.length),
      (∀ i (hi : i < l.length), (p (l.get ⟨i, hi⟩) = true ↔ i = k)) →
      l.filter p = [l.get ⟨k, hk⟩] := by
  induction l with
  | nil => intro k hk _; exact absurd hk (Nat.not_lt_zero k)
  | cons c rest ih =>
      intro k hk h
      cases k with
      | zero =>
          have hc : p c = true := (h 0 (Nat.succ_pos _)).mpr rfl
          have hrest : rest.filter p = [] := by
            rw [List.filter_eq_nil_iff]
            intro a ha
            obtain ⟨⟨i, hi⟩, rfl⟩ := List.mem_iff_get.mp ha
            intro hpa
            have := (h (i + 1) (Nat.succ_lt_succ hi)).mp hpa
            omega
          simp [List.filter_cons, hc, hrest, List.get]
      | succ j =>
          have hc : p c = false := by
            rcases hpc : p c with _ | _
            · rfl
            · have := (h 0 (Nat.succ_pos _)).mp hpc
              omega
          have hrest := ih j (Nat.lt_of_succ_lt_succ hk) (fun i hi => by
            have hiff := h (i + 1) (Nat.succ_lt_succ hi)
            constructor
            · intro hp
              have := hiff.mp hp
              omega
            · intro hij
              exact hiff.mpr (by omega))
          simp [List.filter_cons, hc, hrest, List.get]

theorem truthyVal_eq_some {o : Option String} {t : String}
    (h : truthyVal o = some t) : o = some t ∧ t ≠ "" := by
  cases o with
  | none => simp [truthyVal] at h
  | some s =>
      by_cases hs : s = ""
      · simp [truthyVal, hs] at h
      · simp [truthyVal, hs] at h
        subst h
        exact ⟨rfl, hs⟩

theorem generateW3CTraceparent_ne_empty (rand : Nat → Nat) :
    generateW3CTraceparent rand ≠ "" := by
  intro h
  have := congrArg String.data h
  simp [generateW3CTraceparent, generateW3CTraceparentL] at this

theorem toOutcome_messageId {α : Type} (biz : Json → SQSRecord → Except String α)
    (r : SQSRecord) : (toOutcome biz r).messageId = r.messageId := by
  cases hpr : processRecord biz r <;>
    simp [toOutcome, hpr, RecordOutcome.messageId]

theorem toOutcome_isSuccess {α : Type} (biz : Json → SQSRecord → Except String α)
    (r : SQSRecord) :
    (toOutcome biz r).isSuccess = !isExceptError (processRecord biz r) := by
  cases hpr : processRecord biz r <;>
    simp [toOutcome, hpr, RecordOutcome.isSuccess, isExceptError]

theorem extract_of_attrsCarrier_truthy (r : SQSRecord) (t : String)
    (h : truthyVal (attrsCarrier r) = some t) :
    extractIncomingTraceContext r = some (contextFromTraceparent t) := by
  unfold extractIncomingTraceContext
  rw [h]

/-- Claim C6: the Envelope Unwrapper yields the inner payload of a
notification envelope, yields the same payload from the direct body, and
fails with the malformed-payload error when neither parses. -/
theorem c6_envelope_unwrapper :
    parseMessage ⟨"m1",
        "\x7b\"Type\":\"Notification\",\"Message\":\"\x7b\\\"x\\\":1\x7d\"\x7d",
        none, none⟩
      = Except.ok (Json.obj [("x", Json.num 1)])
    ∧ parseMessage ⟨"m1", "\x7b\"x\":1\x7d", none, none⟩
      = Except.ok (Json.obj [("x", Json.num 1)])
    ∧ isExceptError (parseMessage ⟨"m1", "not json", none, none⟩) = true :=
  ⟨rfl, rfl, rfl⟩

/-- Claim C1 is false on the code: with both carrier slots populated and
different, `extractIncomingTraceContext` returns the primary `traceparent`
value, not the backup. -/
theorem c1_counterexample :
    (extractIncomingTraceContext ⟨"m1", "",
        some [("traceparent",
                ⟨"String", "00-aaaaaaaaaaaaaaaaaaaaaaaaaaaaaaaa-aaaaaaaaaaaaaaaa-01"⟩),
              ("w3c_traceparent_orig",
                ⟨"String", "00-bbbbbbbbbbbbbbbbbbbbbbbbbbbbbbbb-bbbbbbbbbbbbbbbb-01"⟩)],
        none⟩).map TraceContext.traceparent
      = some "00-aaaaaaaaaaaaaaaaaaaaaaaaaaaaaaaa-aaaaaaaaaaaaaaaa-01"
    ∧ ("00-aaaaaaaaaaaaaaaaaaaaaaaaaaaaaaaa-aaaaaaaaaaaaaaaa-01" : String)
      ≠ "00-bbbbbbbbbbbbbbbbbbbbbbbbbbbbbbbb-bbbbbbbbbbbbbbbb-01" :=
  ⟨rfl, by decide⟩

/-- Claim C1 (amended): the primary `traceparent` attribute wins whenever it
is present with a non-empty value, regardless of the backup; the backup
`w3c_traceparent_orig` attribute is used only when the primary is absent or
empty. -/
theorem c1_primary_wins (mid body : String) (attrs : List (String × MsgAttr))
    (hdrs : Option (List (String × String))) :
    (∀ pv, (jsLookup attrs "traceparent").map MsgAttr.stringValue = some pv →
      pv ≠ "" →
      (extractIncomingTraceContext ⟨mid, body, some attrs, hdrs⟩).map
        TraceContext.traceparent = some pv)
    ∧ (truthyVal ((jsLookup attrs "traceparent").map MsgAttr.stringValue)
        = none →
      ∀ bv, (jsLookup attrs "w3c_traceparent_orig").map MsgAttr.stringValue
        = some bv → bv ≠ "" →
      (extractIncomingTraceContext ⟨mid, body, some attrs, hdrs⟩).map
        TraceContext.traceparent = some bv) := by
  constructor
  · intro pv hpv hne
    have h1 : truthyVal ((jsLookup attrs "traceparent").map
        MsgAttr.stringValue) = some pv := by
      rw [hpv]; simp [truthyVal, hne]
    have h2 : truthyVal (attrsCarrier ⟨mid, body, some attrs, hdrs⟩)
        = some pv := by
      show truthyVal (jsOrOpt _ _) = some pv
      unfold jsOrOpt
      rw [h1]
      simp [truthyVal, hne]
    rw [extract_of_attrsCarrier_truthy _ _ h2]
    rfl
  · intro hnone bv hbv hne
    have h2 : truthyVal (attrsCarrier ⟨mid, body, some attrs, hdrs⟩)
        = some bv := by
      show truthyVal (jsOrOpt _ _) = some bv
      unfold jsOrOpt
      rw [hnone, hbv]
      simp [truthyVal, hne]
    rw [extract_of_attrsCarrier_truthy _ _ h2]
    rfl

/-- Witness for the amended claim C1 at a concrete record. -/
theorem c1_witness :
    (extractIncomingTraceContext ⟨"m1", "",
        some [("traceparent", ⟨"String", "pp"⟩)], none⟩).map
      TraceContext.traceparent = some "pp" :=
  (c1_primary_wins "m1" "" [("traceparent", ⟨"String", "pp"⟩)] none).1 "pp"
    rfl (by decide)

/-- Claim C3 is false on the code: a present but malformed carrier (here
`"garbage"`, rejected by the codec) is not treated as absent — the extractor
returns it verbatim, with `undefined` trace and span ids. -/
theorem c3_counterexample :
    parseTraceparent "garbage" = none
    ∧ extractIncomingTraceContext ⟨"m1", "",
        some [("traceparent", ⟨"String", "garbage"⟩)], none⟩
      = some ⟨none, none, "garbage"⟩ :=
  ⟨by decide, rfl⟩

/-- Claim C3 (amended): the extractor never throws (it is a total function)
and returns `none` exactly when both attribute carriers and the header are
absent or empty; a present non-empty carrier — malformed or not — is
returned verbatim, with no well-formedness validation. -/
theorem c3_no_validation (r : SQSRecord) :
    (extractIncomingTraceContext r = none ↔
      truthyVal (attrsCarrier r) = none ∧ headerCarrier r = none)
    ∧ (∀ t, truthyVal (attrsCarrier r) = some t →
        (extractIncomingTraceContext r).map TraceContext.traceparent = some t) := by
  constructor
  · cases hA : truthyVal (attrsCarrier r) with
    | some t => simp [extractIncomingTraceContext, hA]
    | none =>
        cases hH : headerCarrier r with
        | some t => simp [extractIncomingTraceContext, hA, hH]
        | none => simp [extractIncomingTraceContext, hA, hH]
  · intro t hA
    simp [extractIncomingTraceContext, hA, contextFromTraceparent]

/-- Witness for the amended claim C3 at a concrete record. -/
theorem c3_witness :
    (extractIncomingTraceContext ⟨"m1", "",
        some [("traceparent", ⟨"String", "garbage"⟩)], none⟩).map
      TraceContext.traceparent = some "garbage" :=
  (c3_no_validation ⟨"m1", "",
    some [("traceparent", ⟨"String", "garbage"⟩)], none⟩).2 "garbage" rfl

theorem toOutcome_of_ok {α : Type} {biz : Json → SQSRecord → Except String α}
    {r : SQSRecord} {v : α} (hpr : processRecord biz r = Except.ok v) :
    toOutcome biz r = RecordOutcome.success r.messageId v := by
  unfold toOutcome
  rw [hpr]

theorem toOutcome_of_error {α : Type}
    {biz : Json → SQSRecord → Except String α} {r : SQSRecord} {e : String}
    (hpr : processRecord biz r = Except.error e) :
    toOutcome biz r = RecordOutcome.error r.messageId e := by
  unfold toOutcome
  rw [hpr]

theorem isExceptError_error {e : String} {a : Type} :
    isExceptError (Except.error e : Except String a) = true := rfl

theorem isExceptError_ok {a : Type} {v : a} :
    isExceptError (Except.ok v : Except String a) = false := rfl

theorem failures_as_results_filter {α : Type} (records : List SQSRecord)
    (biz : Json → SQSRecord → Except String α) :
    (records.filter (fun r => isExceptError (processRecord biz r))).map
        SQSRecord.messageId
      = ((records.map (toOutcome biz)).filter RecordOutcome.isError).map
        RecordOutcome.messageId := by
  induction records with
  | nil => rfl
  | cons r rest ih =>
      rw [List.map_cons, List.filter_cons, List.filter_cons]
      cases hpr : processRecord biz r with
      | ok v =>
          rw [toOutcome_of_ok hpr]
          simp [RecordOutcome.isError, isExceptError_ok, ih]
      | error e =>
          rw [toOutcome_of_error hpr]
          simp [RecordOutcome.isError, RecordOutcome.messageId,
            isExceptError_error, ih]

/-- Claim C4: when the business callback fails for exactly the record at
position `k` of the batch (parsing succeeding everywhere), `processBatch`
reports exactly that record's `messageId` in `batchItemFailures`, records a
status for every record (no abort), and every other record's status is
success. -/
theorem c4_failure_isolation {α : Type} (records : List SQSRecord)
    (biz : Json → SQSRecord → Except String α) (k : Nat)
    (hk : k < records.length)
    (h : ∀ i (hi : i < records.length), ∃ m,
      parseMessage (records.get ⟨i, hi⟩) = Except.ok m ∧
      (isExceptError (biz m (records.get ⟨i, hi⟩)) = true ↔ i = k)) :
    (processBatch records biz).batchItemFailures
      = [(records.get ⟨k, hk⟩).messageId]
    ∧ (processBatch records biz).results.length = records.length
    ∧ ∀ i (hi : i < records.length), i ≠ k →
        ∃ o, (processBatch records biz).results.get? i = some o
          ∧ o.isSuccess = true := by
  have hp : ∀ i (hi : i < records.length),
      (isExceptError (processRecord biz (records.get ⟨i, hi⟩)) = true
        ↔ i = k) := by
    intro i hi
    obtain ⟨m, hm, hiff⟩ := h i hi
    rw [show processRecord biz (records.get ⟨i, hi⟩)
        = biz m (records.get ⟨i, hi⟩) by rw [processRecord, hm]]
    exact hiff
  refine ⟨?_, ?_, ?_⟩
  · rw [processBatch_failures_eq,
      filter_singleton_of_index records _ k hk hp]
    rfl
  · rw [processBatch_results_eq, List.length_map]
  · intro i hi hne
    rw [processBatch_results_eq]
    refine ⟨toOutcome biz (records.get ⟨i, hi⟩), ?_, ?_⟩
    · rw [List.get?_map _ _ i, List.get?_eq_get hi]
      rfl
    · rw [toOutcome_isSuccess]
      cases hval : isExceptError (processRecord biz (records.get ⟨i, hi⟩)) with
      | false => rfl
      | true => exact absurd ((hp i hi).mp hval) hne

/-- Witness for claim C4: a two-record batch where the callback fails only on
the second record yields exactly that record's identity as the failure. -/
theorem c4_witness :
    (processBatch [⟨"m1", "1", none, none⟩, ⟨"m2", "1", none, none⟩]
      (fun _ r => if r.messageId = "m2" then Except.error "boom"
        else Except.ok (0 : Nat))).batchItemFailures = ["m2"] := by
  have hmain := c4_failure_isolation
    [⟨"m1", "1", none, none⟩, ⟨"m2", "1", none, none⟩]
    (fun _ r => if r.messageId = "m2" then Except.error "boom"
      else Except.ok (0 : Nat)) 1 (by decide) ?_
  · exact hmain.1
  · intro i hi
    have hi2 : i < 2 := hi
    interval_cases i
    · refine ⟨Json.num 1, rfl, ?_⟩
      show isExceptError (if ("m1" : String) = "m2" then Except.error "boom"
        else Except.ok (0 : Nat)) = true ↔ 0 = 1
      decide
    · refine ⟨Json.num 1, rfl, ?_⟩
      show isExceptError (if ("m2" : String) = "m2" then Except.error "boom"
        else Except.ok (0 : Nat)) = true ↔ 1 = 1
      decide

/-- Claim C5: `processBatch` yields exactly one status per input record (in
delivery order), `batchItemFailures` is exactly the identities of the
error-status entries in original order, and it is empty exactly when every
record succeeded. -/
theorem c5_batch_outcome_invariants {α : Type} (records : List SQSRecord)
    (biz : Json → SQSRecord → Except String α) :
    (processBatch records biz).results.map RecordOutcome.messageId
        = records.map SQSRecord.messageId
    ∧ (processBatch records biz).batchItemFailures
        = ((processBatch records biz).results.filter
            RecordOutcome.isError).map RecordOutcome.messageId
    ∧ ((processBatch records biz).batchItemFailures = []
        ↔ (processBatch records biz).results.all RecordOutcome.isSuccess
            = true) := by
  refine ⟨?_, ?_, ?_⟩
  · rw [processBatch_results_eq, List.map_map]
    exact List.map_congr_left fun r _ => toOutcome_messageId biz r
  · rw [processBatch_results_eq, processBatch_failures_eq]
    exact failures_as_results_filter records biz
  · rw [processBatch_results_eq, processBatch_failures_eq]
    rw [List.map_eq_nil_iff, List.filter_eq_nil_iff]
    constructor
    · intro hf
      rw [List.all_eq_true]
      intro o ho
      rw [List.mem_map] at ho
      obtain ⟨r, hr, rfl⟩ := ho
      have hnp := hf r hr
      rw [toOutcome_isSuccess]
      cases hval : isExceptError (processRecord biz r) with
      | false => rfl
      | true => exact absurd hval hnp
    · intro hs r hr hP
      have hall := List.all_eq_true.mp hs (toOutcome biz r)
        (List.mem_map_of_mem _ hr)
      rw [toOutcome_isSuccess, hP] at hall
      simp at hall

/-- Witness for claim C5 at a concrete mixed batch. -/
theorem c5_witness :
    (processBatch [⟨"m1", "1", none, none⟩, ⟨"m2", "bad", none, none⟩]
      (fun _ _ => Except.ok (0 : Nat))).batchItemFailures
      = ((processBatch [⟨"m1", "1", none, none⟩, ⟨"m2", "bad", none, none⟩]
          (fun _ _ => Except.ok (0 : Nat))).results.filter
            RecordOutcome.isError).map RecordOutcome.messageId :=
  (c5_batch_outcome_invariants
    [⟨"m1", "1", none, none⟩, ⟨"m2", "bad", none, none⟩]
    (fun _ _ => Except.ok (0 : Nat))).2.1

/-- Claim C2 [failing-path evaluation]: the publisher handler writes the one
computed traceparent into both carrier attributes, but `SNSPublisher.publish`
computes each carrier's fallback independently (`generateFallbackTrace()` is
called once per attribute), so with no active trace context — which in
`publish` is always the case, the manager never being initialised — the two
published carrier values differ. -/
theorem c2_carrier_divergence :
    (∀ (tt oid tp : String) (amount customerId reason : Option String),
      jsLookup (handlerMessageAttributes tt oid amount customerId reason tp)
          "traceparent" = some ⟨"String", tp⟩
      ∧ jsLookup (handlerMessageAttributes tt oid amount customerId reason tp)
          "w3c_traceparent_orig" = some ⟨"String", tp⟩)
    ∧ jsLookup (publishMessageAttributes []
          (fun i => if i < 48 then 0 else 1)) "traceparent"
      ≠ jsLookup (publishMessageAttributes []
          (fun i => if i < 48 then 0 else 1)) "w3c_traceparent_orig" := by
  constructor
  · intro tt oid tp amount customerId reason
    constructor
    · simp only [handlerMessageAttributes]
      rw [jsLookup_jsSet_ne _ _ _ _ (by decide), jsLookup_jsSet_self]
    · simp only [handlerMessageAttributes]
      rw [jsLookup_jsSet_self]
  · decide

/-- Claim C7: the publisher handler's context source is the ordered fallback
chain — the caller's `event.traceparent` when truthy, else the active-span
identifier when truthy, else a freshly generated identifier — and it always
returns exactly one non-empty identifier. -/
theorem c7_context_source_chain (inc otel : Option String)
    (rand : Nat → Nat) :
    (∀ t, truthyVal inc = some t → publisherTraceparent inc otel rand = t)
    ∧ (truthyVal inc = none → ∀ t, truthyVal otel = some t →
        publisherTraceparent inc otel rand = t)
    ∧ (truthyVal inc = none → truthyVal otel = none →
        publisherTraceparent inc otel rand = generateW3CTraceparent rand)
    ∧ publisherTraceparent inc otel rand ≠ "" := by
  refine ⟨?_, ?_, ?_, ?_⟩
  · intro t ht
    unfold publisherTraceparent
    rw [ht]
  · intro hi t ht
    unfold publisherTraceparent
    rw [hi, ht]
  · intro hi ho
    unfold publisherTraceparent
    rw [hi, ho]
  · cases hi : truthyVal inc with
    | some t =>
        have hne := (truthyVal_eq_some hi).2
        unfold publisherTraceparent
        rw [hi]
        exact hne
    | none =>
        cases ho : truthyVal otel with
        | some t =>
            have hne := (truthyVal_eq_some ho).2
            unfold publisherTraceparent
            rw [hi, ho]
            exact hne
        | none =>
            unfold publisherTraceparent
            rw [hi, ho]
            exact generateW3CTraceparent_ne_empty rand

/-- Witness for claim C7: a truthy caller override wins. -/
theorem c7_witness :
    publisherTraceparent (some "00-ab-cd-01") none (fun _ => 0)
      = "00-ab-cd-01" :=
  (c7_context_source_chain (some "00-ab-cd-01") none (fun _ => 0)).1
    "00-ab-cd-01" (by decide)

theorem parse_generateW3C (rand : Nat → Nat) :
    parseTraceparent (generateW3CTraceparent rand)
      = some ⟨"00", String.mk (randHexChars rand 0 32),
          String.mk (randHexChars rand 32 16), 1⟩ := by
  unfold generateW3CTraceparent parseTraceparent generateW3CTraceparentL
  rw [show (String.mk (['0', '0'] ++ '-' :: (randHexChars rand 0 32 ++ '-' ::
      (randHexChars rand 32 16 ++ '-' :: ['0', '1'])))).data
    = ['0', '0'] ++ '-' :: (randHexChars rand 0 32 ++ '-' ::
      (randHexChars rand 32 16 ++ '-' :: ['0', '1'])) from rfl]
  rw [splitDash_append _ _ (by decide),
    splitDash_append _ _ (randHexChars_nodash rand 0 32),
    splitDash_append _ _ (randHexChars_nodash rand 32 16),
    splitDash_nodash _ (by decide)]
  show (if (['0', '0'] : List Char).length = 2
      ∧ (randHexChars rand 0 32).length = 32
      ∧ (randHexChars rand 32 16).length = 16
      ∧ (['0', '1'] : List Char).length = 2
      ∧ (['0', '0'] ++ randHexChars rand 0 32 ++ randHexChars rand 32 16
          ++ ['0', '1']).all isLowerHexDigit = true then
    (some ⟨String.mk ['0', '0'], String.mk (randHexChars rand 0 32),
      String.mk (randHexChars rand 32 16), hexByteVal ['0', '1']⟩
      : Option TraceIdentifier)
    else none)
    = some ⟨"00", String.mk (randHexChars rand 0 32),
        String.mk (randHexChars rand 32 16), 1⟩
  rw [if_pos]
  · rfl
  · refine ⟨rfl, randHexChars_length rand 0 32, randHexChars_length rand 32 16,
      rfl, ?_⟩
    simp only [List.all_append]
    simp [randHexChars_all_hex]
    constructor <;> decide

/-- Claim C8: every identifier produced by the fallback generator parses as a
well-formed trace identifier with a 32-hex-character trace id, a
16-hex-character span id, version `00` and sampled flags `01`, and it
round-trips through serialize and parse; the generator is total. -/
theorem c8_generator_wellformed (rand : Nat → Nat) :
    ∃ t, parseTraceparent (generateW3CTraceparent rand) = some t
      ∧ t.version = "00"
      ∧ t.flags = 1
      ∧ t.traceId.length = 32
      ∧ t.traceId.data.all isLowerHexDigit = true
      ∧ t.spanId.length = 16
      ∧ t.spanId.data.all isLowerHexDigit = true
      ∧ serializeTraceparent t = generateW3CTraceparent rand
      ∧ parseTraceparent (serializeTraceparent t) = some t := by
  have hparse := parse_generateW3C rand
  have hser : serializeTraceparent ⟨"00", String.mk (randHexChars rand 0 32),
      String.mk (randHexChars rand 32 16), 1⟩
      = generateW3CTraceparent rand := rfl
  refine ⟨⟨"00", String.mk (randHexChars rand 0 32),
    String.mk (randHexChars rand 32 16), 1⟩,
    hparse, rfl, rfl, ?_, ?_, ?_, ?_, hser, ?_⟩
  · exact randHexChars_length rand 0 32
  · exact randHexChars_all_hex rand 0 32
  · exact randHexChars_length rand 32 16
  · exact randHexChars_all_hex rand 32 16
  · rw [hser]
    exact hparse

/-- Claim C9 is false on the spec's own codec: a hex-correct text whose flags
field is `02` parses, but serialization canonicalizes the flags to the
sampled bit, so re-parsing yields flags `0`, not `2`. -/
theorem c9_counterexample :
    parseTraceparent
        "00-00000000000000000000000000000000-0000000000000000-02"
      = some ⟨"00", "00000000000000000000000000000000", "0000000000000000", 2⟩
    ∧ (parseTraceparent
        "00-00000000000000000000000000000000-0000000000000000-02").bind
        (fun x => parseTraceparent (serializeTraceparent x))
      ≠ parseTraceparent
        "00-00000000000000000000000000000000-0000000000000000-02" :=
  ⟨by decide, by decide⟩

/-- Claim C9 (amended): for every valid hex-correct trace-context text whose
flags byte is already canonical (`00` or `01`, i.e. value below 2),
`parse(serialize(parse(text)))` equals `parse(text)`. -/
theorem c9_roundtrip (s : String) (t : TraceIdentifier)
    (h : parseTraceparent s = some t) (hf : t.flags < 2) :
    (parseTraceparent s).bind
      (fun x => parseTraceparent (serializeTraceparent x))
      = parseTraceparent s := by
  rw [h]
  show parseTraceparent (serializeTraceparent t) = some t
  obtain ⟨v, tr, sp, f, hsplit, h1, h2, h3, h4, h5, ht⟩ :=
    parseTraceparent_inv s t h
  subst ht
  apply parseTraceparent_serialize
  · exact h1
  · exact h2
  · exact h3
  · rw [List.all_eq_true] at h5 ⊢
    intro c hc
    apply h5
    simp at hc ⊢
    tauto
  · exact hf

/-- Witness for the amended claim C9 at a concrete canonical text. -/
theorem c9_witness :
    (parseTraceparent
        "00-aaaaaaaaaaaaaaaaaaaaaaaaaaaaaaaa-bbbbbbbbbbbbbbbb-01").bind
      (fun x => parseTraceparent (serializeTraceparent x))
    = parseTraceparent
        "00-aaaaaaaaaaaaaaaaaaaaaaaaaaaaaaaa-bbbbbbbbbbbbbbbb-01" :=
  c9_roundtrip _
    ⟨"00", "aaaaaaaaaaaaaaaaaaaaaaaaaaaaaaaa", "bbbbbbbbbbbbbbbb", 1⟩
    (by decide) (by decide)

/-- Claim C10: `SNSPublisher.publish` always publishes both carrier
attributes with the library-computed values — overwriting caller-supplied
entries of those names — while every other caller-supplied attribute is
published unchanged. -/
theorem c10_publish_frame (tc : Option TraceContext)
    (opts : List (String × MsgAttr)) (rand : Nat → Nat) :
    jsLookup (buildMessageAttributes tc opts rand) "traceparent"
      = some ⟨"String", jsOrStr (tc.map TraceContext.traceparent)
          (generateFallbackTrace rand)⟩
    ∧ jsLookup (buildMessageAttributes tc opts rand) "w3c_traceparent_orig"
      = some ⟨"String", jsOrStr (tc.map TraceContext.traceparent)
          (generateFallbackTrace (fun i => rand (48 + i)))⟩
    ∧ ∀ k, k ≠ "traceparent" → k ≠ "w3c_traceparent_orig" →
        jsLookup (buildMessageAttributes tc opts rand) k
          = jsLookup opts k := by
  refine ⟨?_, ?_, ?_⟩
  · simp only [buildMessageAttributes]
    rw [jsLookup_jsSet_ne _ _ _ _ (by decide), jsLookup_jsSet_self]
  · simp only [buildMessageAttributes]
    rw [jsLookup_jsSet_self]
  · intro k h1 h2
    simp only [buildMessageAttributes]
    rw [jsLookup_jsSet_ne _ _ _ _ h2, jsLookup_jsSet_ne _ _ _ _ h1]

/-- Witness for claim C10: a caller attribute under another name survives
unchanged. -/
theorem c10_witness :
    jsLookup (buildMessageAttributes none [("foo", ⟨"String", "bar"⟩)]
      (fun _ => 0)) "foo" = some ⟨"String", "bar"⟩ := by
  rw [(c10_publish_frame none [("foo", ⟨"String", "bar"⟩)]
    (fun _ => 0)).2.2 "foo" (by decide) (by decide)]
  rfl
